import Mathlib

/-!
Shallow embedding of the holiday/workday resolver of this repository
(`src/holiday_query_mcp/holiday_query_mcp.py` and
`src/holiday_query_mcp/workday.py`), together with theorems settling the
frozen claims about it.

Conventions of the embedding:
* Python `datetime.date` objects are a `Date` structure of three naturals;
  `date.weekday()` is computed through the proleptic-Gregorian ordinal
  exactly as CPython does (`(toordinal + 6) % 7`, Monday = 0).
* stateful pieces (the `functools.lru_cache(maxsize=1)` around
  `get_access_token`) are modelled by explicit state passing;
* fallible remote calls are oracle parameters (`Option`-valued outcomes),
  so that a theorem can quantify over every behaviour of the network.
-/

namespace Xmcp

/-- A calendar date, the embedding of Python `datetime.date` (year, month, day). -/
structure Date where
  year : Nat
  month : Nat
  day : Nat
deriving DecidableEq

/-- Gregorian leap-year rule, as used by `datetime.date`. -/
def isLeap (y : Nat) : Bool :=
  y % 4 == 0 && (y % 100 != 0 || y % 400 == 0)

/-- Number of days of month `m` in year `y` (Gregorian). -/
def daysInMonth (y m : Nat) : Nat :=
  if m = 2 then (if isLeap y then 29 else 28)
  else if m = 4 ∨ m = 6 ∨ m = 9 ∨ m = 11 then 30
  else 31

/-- Days in year `y` strictly before month `m` (so 0 for January). -/
def daysBeforeMonth (y : Nat) : Nat → Nat
  | 0 => 0
  | 1 => 0
  | m + 2 => daysBeforeMonth y (m + 1) + daysInMonth y (m + 1)

/-- Proleptic-Gregorian ordinal of a date, as `datetime.date.toordinal`
(ordinal 1 is 0001-01-01). -/
def toOrdinal (d : Date) : Nat :=
  365 * (d.year - 1) + (d.year - 1) / 4 + (d.year - 1) / 400 - (d.year - 1) / 100
    + daysBeforeMonth d.year d.month + d.day

/-- Day of week, as `datetime.date.weekday`: Monday = 0, ..., Sunday = 6. -/
def weekday (d : Date) : Nat :=
  (toOrdinal d + 6) % 7

/-- The `weekday in [5, 6]` test of the source (Saturday = 5, Sunday = 6). -/
def isWeekendB (d : Date) : Bool :=
  weekday d == 5 || weekday d == 6

/-- A date that `datetime.date` would accept (month 1–12, day within the month,
year at least `MINYEAR = 1`). -/
def ValidDate (d : Date) : Prop :=
  1 ≤ d.year ∧ 1 ≤ d.month ∧ d.month ≤ 12 ∧ 1 ≤ d.day ∧ d.day ≤ daysInMonth d.year d.month

instance (d : Date) : Decidable (ValidDate d) := by
  unfold ValidDate; infer_instance

/-- Python date comparison `<=` (lexicographic on (year, month, day)). -/
def dateLe (a b : Date) : Prop :=
  a.year < b.year ∨ (a.year = b.year ∧
    (a.month < b.month ∨ (a.month = b.month ∧ a.day ≤ b.day)))

/-- Python date comparison `<` (lexicographic on (year, month, day)). -/
def dateLt (a b : Date) : Prop :=
  a.year < b.year ∨ (a.year = b.year ∧
    (a.month < b.month ∨ (a.month = b.month ∧ a.day < b.day)))

instance (a b : Date) : Decidable (dateLe a b) := by
  unfold dateLe; infer_instance

instance (a b : Date) : Decidable (dateLt a b) := by
  unfold dateLt; infer_instance

/-- The calendar successor of a date: the value `date + timedelta(days=1)`
produces when no overflow occurs.  CPython's `date.__add__` works on ordinals
and raises `OverflowError` when the result would pass
`date.max = 9999-12-31` (ordinal 3652059); that bound check — the error path
of the increment — is modelled where the source performs the increment, in
`holidayScanE` below, with `nextDate` supplying the in-range successor
value. -/
def nextDate (d : Date) : Date :=
  if d.day < daysInMonth d.year d.month then ⟨d.year, d.month, d.day + 1⟩
  else if d.month < 12 then ⟨d.year, d.month + 1, 1⟩
  else ⟨d.year + 1, 1, 1⟩

theorem daysInMonth_le_31 (y m : Nat) : daysInMonth y m ≤ 31 := by
  unfold daysInMonth
  split
  · split <;> omega
  · split <;> omega

theorem one_le_daysInMonth (y m : Nat) : 1 ≤ daysInMonth y m := by
  unfold daysInMonth
  split
  · split <;> omega
  · split <;> omega

theorem validDate_mk (y m dd : Nat) :
    ValidDate ⟨y, m, dd⟩ ↔ 1 ≤ y ∧ 1 ≤ m ∧ m ≤ 12 ∧ 1 ≤ dd ∧ dd ≤ daysInMonth y m :=
  Iff.rfl

theorem dateLe_mk (ya ma da yb mb db : Nat) :
    dateLe ⟨ya, ma, da⟩ ⟨yb, mb, db⟩ ↔
      ya < yb ∨ (ya = yb ∧ (ma < mb ∨ (ma = mb ∧ da ≤ db))) :=
  Iff.rfl

theorem dateLt_mk (ya ma da yb mb db : Nat) :
    dateLt ⟨ya, ma, da⟩ ⟨yb, mb, db⟩ ↔
      ya < yb ∨ (ya = yb ∧ (ma < mb ∨ (ma = mb ∧ da < db))) :=
  Iff.rfl

theorem nextDate_valid {d : Date} (h : ValidDate d) : ValidDate (nextDate d) := by
  obtain ⟨y, m, dd⟩ := d
  rw [validDate_mk] at h
  have ha := one_le_daysInMonth y (m + 1)
  have hb := one_le_daysInMonth (y + 1) 1
  unfold nextDate
  dsimp only
  split
  · rw [validDate_mk]; omega
  · split
    · rw [validDate_mk]; omega
    · rw [validDate_mk]; omega

theorem dateLt_nextDate (d : Date) : dateLt d (nextDate d) := by
  obtain ⟨y, m, dd⟩ := d
  unfold nextDate
  dsimp only
  split
  · rw [dateLt_mk]; omega
  · split
    · rw [dateLt_mk]; omega
    · rw [dateLt_mk]; omega

theorem dateLe_refl (a : Date) : dateLe a a := by
  unfold dateLe; omega

theorem dateLe_trans {a b c : Date} (h1 : dateLe a b) (h2 : dateLe b c) : dateLe a c := by
  unfold dateLe at *; omega

theorem dateLt_trans {a b c : Date} (h1 : dateLt a b) (h2 : dateLt b c) : dateLt a c := by
  unfold dateLt at *; omega

theorem dateLt_of_lt_of_le {a b c : Date} (h1 : dateLt a b) (h2 : dateLe b c) : dateLt a c := by
  unfold dateLt dateLe at *; omega

theorem dateLe_of_lt {a b : Date} (h : dateLt a b) : dateLe a b := by
  unfold dateLt dateLe at *; omega

theorem dateLt_of_le_of_ne {a b : Date} (h1 : dateLe a b) (h2 : a ≠ b) : dateLt a b := by
  obtain ⟨ya, ma, da⟩ := a
  obtain ⟨yb, mb, db⟩ := b
  rw [dateLe_mk] at h1
  rw [dateLt_mk]
  simp only [ne_eq, Date.mk.injEq] at h2
  omega

theorem dateLt_irrefl (a : Date) : ¬ dateLt a a := by
  unfold dateLt; omega

/-- Key successor property: for valid dates, `nextDate a` is the least date
strictly above `a`. -/
theorem nextDate_le_of_lt {a b : Date} (ha : ValidDate a) (hb : ValidDate b)
    (h : dateLt a b) : dateLe (nextDate a) b := by
  obtain ⟨ya, ma, da⟩ := a
  obtain ⟨yb, mb, db⟩ := b
  rw [validDate_mk] at ha hb
  rw [dateLt_mk] at h
  unfold nextDate
  dsimp only
  split
  · rw [dateLe_mk]; omega
  · split
    · -- month rolls over: a.day has reached daysInMonth ya ma
      rw [dateLe_mk]
      rcases h with h | ⟨rfl, h | ⟨rfl, h⟩⟩
      · omega
      · omega
      · omega
    · -- year rolls over: a.month = 12, a.day = daysInMonth ya 12
      rw [dateLe_mk]
      rcases h with h | ⟨rfl, h | ⟨rfl, h⟩⟩
      · omega
      · omega
      · omega

/-- Zero-pad a natural to two digits, as `strftime` does for `%m` / `%d`. -/
def pad2 (n : Nat) : String :=
  if n < 10 then "0" ++ toString n else toString n

/-- Zero-pad a natural to four digits, as `strftime` does for `%Y`. -/
def pad4 (n : Nat) : String :=
  if n < 10 then "000" ++ toString n
  else if n < 100 then "00" ++ toString n
  else if n < 1000 then "0" ++ toString n
  else toString n

/-- The `date_obj.strftime("%Y-%m-%d")` serialization of the source. -/
def dateStr (d : Date) : String :=
  pad4 d.year ++ "-" ++ pad2 d.month ++ "-" ++ pad2 d.day

/-- Decimal value of an ASCII digit character. -/
def digitVal (c : Char) : Nat := c.toNat - 48

/-- Inverse of `pad2` on two-digit strings (used only to prove injectivity). -/
def unpad2 (s : String) : Nat :=
  match s.data with
  | [a, b] => 10 * digitVal a + digitVal b
  | _ => 0

theorem pad2_length : ∀ n < 100, (pad2 n).length = 2 := by decide

theorem unpad2_pad2 : ∀ n < 100, unpad2 (pad2 n) = n := by decide

/-! ## Embedding of `src/holiday_query_mcp/workday.py` -/

/-- A Python dictionary key as used by `get_work_day`: the holiday dict is keyed
by each record's `date` value while the probe is an integer timestamp.  Python
equality between an `int` and a `str` is always false, which the derived
`DecidableEq` (no cross-constructor equality) reproduces. -/
inductive PyKey where
  | int (n : Int)
  | str (s : String)
deriving DecidableEq

/-- One element of the remote `data.business_holiday` list, as consumed by
`get_work_day`: a `date` field (used as dict key) and an `is_work_day` flag. -/
structure HolidayRecord where
  date : PyKey
  is_work_day : Bool
deriving DecidableEq

/-- Seconds since the Unix epoch of a date's midnight, the
`int(datetime.combine(date, midnight).timestamp())` computed by `is_workday`
(719163 is `date(1970, 1, 1).toordinal()`; the fixed local-offset term cancels
in the round trip `fromtimestamp(timestamp(d)) = d`, so it is omitted). -/
def timestampOf (d : Date) : Int :=
  86400 * ((toOrdinal d : Int) - 719163)

/-- Embedding of `workday.get_work_day(year, timestamp)` (the `tag="list"` mode,
unused by `is_workday`, is not modelled).  `holidayData` is the outcome of
`get_holiday_data`: `none` covers every remote failure (token-acquisition
failure, transport failure, non-2xx, malformed JSON, missing keys), `some rs`
a successfully fetched `business_holiday` list.  The dict built from the list
is probed with the integer timestamp; on a miss the weekday default
`weekday < 5` is returned.  The timestamp probe is passed here as the date it
was derived from, since `is_workday` derives it bijectively from the date. -/
def get_work_day (holidayData : Option (List HolidayRecord)) (d : Date) : Option Bool :=
  match holidayData with
  | none => none
  | some records =>
    let holidayDict := records.map fun r => (r.date, r.is_work_day)
    match holidayDict.lookup (PyKey.int (timestampOf d)) with
    | some b => some b
    | none => some (decide (weekday d < 5))

/-- Embedding of `workday.is_workday(date)`.  On `get_work_day` returning
`None` (any remote failure) it substitutes the weekday default `weekday < 5`;
it never raises (its catch-all except returns `False`, a path its modelled
failure modes never reach). -/
def is_workday (holidayData : Option (List HolidayRecord)) (d : Date) : Bool :=
  match get_work_day holidayData d with
  | none => decide (weekday d < 5)
  | some b => b

/-! ## Embedding of `workday.get_access_token` and its `lru_cache(maxsize=1)` -/

/-- A JSON value, for modelling decoded remote response bodies. -/
inductive Json where
  | null
  | bool (b : Bool)
  | num (n : Int)
  | str (s : String)
  | arr (xs : List Json)
  | obj (fields : List (String × Json))

/-- Dictionary probe `key in j` followed by `j[key]`, as the source performs on
decoded token responses; `none` on non-objects and missing keys. -/
def Json.getKey : Json → String → Option Json
  | .obj fields, k => fields.lookup k
  | _, _ => none

/-- The memoization key of `get_access_token`: its three positional arguments
`(center_url, app_id, app_secret)`. -/
structure TokenKey where
  center_url : String
  app_id : String
  app_secret : String
deriving DecidableEq

/-- The body of `get_access_token` (what runs on a cache miss).  `net idx k` is
the outcome of the `idx`-th network round-trip of the process: `none` when
`http_post_json` fails (transport error, timeout, non-2xx), `some j` when it
returns a body that decodes to the JSON value `j` (a malformed-JSON body
behaves identically to a decoded value without a `data.access_token` entry:
both return `None` after the one round-trip).  Returns the result together
with whether a network call was made: an empty `app_id` returns `None` before
any I/O. -/
def getAccessTokenBody (net : Nat → TokenKey → Option Json) (idx : Nat)
    (k : TokenKey) : Option Json × Bool :=
  if k.app_id = "" then (none, false)
  else
    match net idx k with
    | none => (none, true)
    | some j =>
      match j.getKey "data" with
      | none => (none, true)
      | some d => (d.getKey "access_token", true)

/-- Process state of the memoized `get_access_token`: the single
`lru_cache(maxsize=1)` slot (which caches `None` results exactly like
successes) and the number of network round-trips performed so far. -/
structure TokenState where
  cache : Option (TokenKey × Option Json)
  netCount : Nat

/-- The fresh process state: empty cache, no network calls yet. -/
def initTokenState : TokenState := ⟨none, 0⟩

/-- One call to the cached `get_access_token`: a hit on the (capacity-one) slot
returns the stored result and leaves the state untouched; a miss runs the body
and overwrites the slot with the new key and result, evicting any previous
entry. -/
def get_access_token (net : Nat → TokenKey → Option Json) (st : TokenState)
    (k : TokenKey) : Option Json × TokenState :=
  match st.cache with
  | some (k', v) =>
    if k' = k then (v, st)
    else
      let r := getAccessTokenBody net st.netCount k
      (r.1, ⟨some (k, r.1), st.netCount + (if r.2 then 1 else 0)⟩)
  | none =>
    let r := getAccessTokenBody net st.netCount k
    (r.1, ⟨some (k, r.1), st.netCount + (if r.2 then 1 else 0)⟩)

/-- A sequence of `get_access_token` calls, returning the list of results and
the final state. -/
def runTokenCalls (net : Nat → TokenKey → Option Json) (st : TokenState) :
    List TokenKey → List (Option Json) × TokenState
  | [] => ([], st)
  | k :: ks =>
    let r := get_access_token net st k
    let rest := runTokenCalls net r.2 ks
    (r.1 :: rest.1, rest.2)

/-! ## Embedding of `src/holiday_query_mcp/holiday_query_mcp.py` -/

/-- The label `"工作日"` (working day) returned by `HolidayData.is_holiday`. -/
def workingDayLabel : String := "工作日"

/-- The label `"调休（需上班）"` (adjusted workday, work required) returned by
`HolidayData.is_holiday`. -/
def adjustedWorkdayLabel : String := "调休（需上班）"

/-- The label `"周末"` (weekend) returned by `HolidayData.is_holiday`. -/
def weekendLabel : String := "周末"

/-- The label `"法定节假日"` (statutory holiday) returned by
`HolidayData.is_holiday`. -/
def statutoryHolidayLabel : String := "法定节假日"

/-- The label `"休息日"` (special rest day) returned by
`HolidayData.is_holiday`. -/
def specialRestDayLabel : String := "休息日"

/-- The literal 2026 table built by `HolidayData._init_2026_holidays`:
`true` = statutory holiday, `false` = adjusted workday (work required). -/
def holidays2026 : List (String × Bool) :=
  [ ("2026-01-01", true),
    ("2026-02-02", true), ("2026-02-03", true), ("2026-02-04", true),
    ("2026-02-05", true), ("2026-02-06", true), ("2026-02-07", true),
    ("2026-02-08", true),
    ("2026-02-28", false),
    ("2026-04-04", true), ("2026-04-05", true), ("2026-04-06", true),
    ("2026-05-01", true), ("2026-05-02", true), ("2026-05-03", true),
    ("2026-05-04", true), ("2026-05-05", true),
    ("2026-06-20", true), ("2026-06-21", true), ("2026-06-22", true),
    ("2026-09-26", true), ("2026-09-27", true), ("2026-09-28", true),
    ("2026-10-01", true), ("2026-10-02", true), ("2026-10-03", true),
    ("2026-10-04", true), ("2026-10-05", true), ("2026-10-06", true),
    ("2026-10-07", true) ]

/-- `self.holidays`: year → (date string → flag). -/
def holidaysTable : List (Nat × List (String × Bool)) := [(2026, holidays2026)]

/-- The `year in self.holidays and date_str in self.holidays[year]` lookup
followed by `self.holidays[year][date_str]`, fused into one `Option`. -/
def tableLookup (year : Nat) (dateString : String) : Option Bool :=
  match holidaysTable.lookup year with
  | some table => table.lookup dateString
  | none => none

/-- The local-data tail of `HolidayData.is_holiday` (table lookup, then
weekend check, then working-day default). -/
def localClassify (d : Date) : Bool × String :=
  match tableLookup d.year (dateStr d) with
  | some true => (true, statutoryHolidayLabel)
  | some false => (false, adjustedWorkdayLabel)
  | none =>
    if isWeekendB d then (true, weekendLabel) else (false, workingDayLabel)

/-- Embedding of `HolidayData.is_holiday(date_obj)`.  `hasApi` is the module
flag `HAS_API` (whether `import workday` succeeded at startup); `api d` is the
outcome of the call `api_is_workday(date_obj)`: `.ok b` a returned boolean,
`.error ()` a raised exception (which the source catches, falling back to the
local data). -/
def is_holiday (hasApi : Bool) (api : Date → Except Unit Bool) (d : Date) :
    Bool × String :=
  if hasApi then
    match api d with
    | .ok w =>
      if w then
        if isWeekendB d then (false, adjustedWorkdayLabel)
        else (false, workingDayLabel)
      else
        if isWeekendB d then (true, weekendLabel)
        else (true, specialRestDayLabel)
    | .error _ => localClassify d
  else localClassify d

/-- The `api_is_workday` actually installed when `import workday` succeeds:
`workday.is_workday`, which never raises for the modelled failure modes
(it substitutes the weekday default internally on remote failure). -/
def apiFromWorkday (holidayData : Option (List HolidayRecord)) :
    Date → Except Unit Bool :=
  fun d => .ok (is_workday holidayData d)

/-- Termination measure for the Jan 1 → Dec 31 iteration of
`HolidayData.get_holidays`. -/
def scanMeasure (last cur : Date) : Nat :=
  (last.year + 1 - cur.year) * 372 + (12 - cur.month) * 31 + (31 - cur.day)

theorem scanMeasure_next (last cur : Date) (h : dateLe cur last) :
    scanMeasure last (nextDate cur) < scanMeasure last cur := by
  obtain ⟨y, m, dd⟩ := cur
  obtain ⟨ly, lm, ld⟩ := last
  rw [dateLe_mk] at h
  have h31 := daysInMonth_le_31 y m
  unfold nextDate
  dsimp only
  split
  · unfold scanMeasure; dsimp only; omega
  · split
    · unfold scanMeasure; dsimp only; omega
    · unfold scanMeasure; dsimp only; omega

/-- The date-collection loop of `HolidayData.get_holidays`: starting from
`cur`, walk day by day while `current_date <= end_date`, collecting the dates
the classifier marks as holidays.  (The source appends
`current_date.strftime("%Y-%m-%d")`; the serialization is applied by `map`
in `get_holidays` below, which is extensionally the same.) -/
def holidayScan (cls : Date → Bool × String) (last : Date) (cur : Date) :
    List Date :=
  if h : dateLe cur last then
    (if (cls cur).1 then [cur] else []) ++ holidayScan cls last (nextDate cur)
  else []
termination_by scanMeasure last cur
decreasing_by exact scanMeasure_next last cur h

/-- The faithful date-collection loop of `HolidayData.get_holidays`, with the
error path of the increment: while `current_date <= end_date` the body
processes `current_date` and then executes
`current_date += timedelta(days=1)`, which raises `OverflowError` (modelled
`none`; everything accumulated is discarded, as a propagating exception
discards it) whenever the successor ordinal would exceed
`date.max.toordinal() = 3652059`. -/
def holidayScanE (cls : Date → Bool × String) (last : Date) (cur : Date) :
    Option (List Date) :=
  if h : dateLe cur last then
    if toOrdinal cur + 1 ≤ 3652059 then
      (holidayScanE cls last (nextDate cur)).map
        (fun rest => (if (cls cur).1 then [cur] else []) ++ rest)
    else none
  else some []
termination_by scanMeasure last cur
decreasing_by exact scanMeasure_next last cur h

/-- The dates of year `Y` that the `HolidayData.get_holidays(Y)` loop
accumulates while its increments stay in range: the full-year walk from
Jan 1 to Dec 31.  Both branches of the source (remote data fetched, or
fallback) run the identical loop over `self.is_holiday`, so the branch on
`api_get_holiday_data` collapses. -/
def yearScan (cls : Date → Bool × String) (Y : Nat) : List Date :=
  holidayScan cls ⟨Y, 12, 31⟩ ⟨Y, 1, 1⟩

/-- Embedding of `HolidayData.get_holidays(year)`: `none` models a raised
exception — `date(year, 1, 1)` / `date(year, 12, 31)` raise `ValueError`
outside `MINYEAR = 1 ≤ year ≤ MAXYEAR = 9999`, and the day-increment of the
loop raises `OverflowError` past `date.max` (which the remote branch's
`except` would catch only for the fallback loop to raise again, so it
propagates either way); on success, the serialized holiday dates of the
year, in iteration order. -/
def get_holidays (cls : Date → Bool × String) (Y : Nat) : Option (List String) :=
  if 1 ≤ Y ∧ Y ≤ 9999 then
    match holidayScanE cls ⟨Y, 12, 31⟩ ⟨Y, 1, 1⟩ with
    | none => none
    | some ds => some (ds.map dateStr)
  else none

/-- Split a character list at every `'-'` (the separator groups of the
`"%Y-%m-%d"` format). -/
def splitOnDash : List Char → List (List Char)
  | [] => [[]]
  | c :: cs =>
    match splitOnDash cs with
    | [] => [[]]
    | g :: gs => if c = '-' then [] :: g :: gs else (c :: g) :: gs

/-- Embedding of `datetime.strptime(date_str, "%Y-%m-%d").date()`: exactly
three dash-separated all-digit fields, a four-digit year (CPython's `%Y`
pattern), a one/two-digit month in 1–12 and a one/two-digit day valid for the
month (the `date` constructor's range check); `none` models the raised
`ValueError`. -/
def parseDate (s : String) : Option Date :=
  match splitOnDash s.data with
  | [ys, ms, ds] =>
    if ys.length = 4 ∧ ys.all (·.isDigit)
        ∧ 1 ≤ ms.length ∧ ms.length ≤ 2 ∧ ms.all (·.isDigit)
        ∧ 1 ≤ ds.length ∧ ds.length ≤ 2 ∧ ds.all (·.isDigit) then
      let y := ys.foldl (fun a c => a * 10 + digitVal c) 0
      let m := ms.foldl (fun a c => a * 10 + digitVal c) 0
      let dd := ds.foldl (fun a c => a * 10 + digitVal c) 0
      if 1 ≤ y ∧ 1 ≤ m ∧ m ≤ 12 ∧ 1 ≤ dd ∧ dd ≤ daysInMonth y m then
        some ⟨y, m, dd⟩
      else none
    else none
  | _ => none

/-- One element of the `date_records` argument of `validate_date_status`:
`record.get("date")` and `record.get("status")` (`none` = field absent). -/
structure DateRecord where
  date : Option String
  status : Option Bool
deriving DecidableEq

/-- Where `validate_date_status` files one record, and with what fields. -/
inductive ValidationOutcome where
  /-- `date` or `status` missing (or the date string empty): filed invalid
  with the missing-field error, no date parsing attempted. -/
  | invalidMissing
  /-- the date string failed to parse: filed invalid with the
  date-format error. -/
  | invalidParse
  /-- supplied status equals the expected status: filed valid. -/
  | validRec (expected : Bool) (actual : Bool) (kind : String)
  /-- supplied status differs from the expected status: filed invalid with
  the mismatch explanation. -/
  | invalidMismatch (expected : Bool) (actual : Bool) (kind : String)
deriving DecidableEq

/-- Whether an outcome goes to the `valid_records` list. -/
def ValidationOutcome.isValid : ValidationOutcome → Bool
  | .validRec _ _ _ => true
  | _ => false

/-- The per-record body of the `validate_date_status` loop.  `cls` is
`holiday_data.is_holiday`; `expected_status = not is_holiday_flag` and the
record is valid exactly when the supplied status equals it. -/
def validateOne (cls : Date → Bool × String) (r : DateRecord) :
    ValidationOutcome :=
  match r.date with
  | none => .invalidMissing
  | some ds =>
    match r.status with
    | none => .invalidMissing
    | some st =>
      if ds = "" then .invalidMissing
      else
        match parseDate ds with
        | none => .invalidParse
        | some d =>
          let r := cls d
          let expected := ! r.1
          if st = expected then .validRec expected r.1 r.2
          else .invalidMismatch expected r.1 r.2

/-- Embedding of `validate_date_status(date_records)`: every record is
processed in order and filed exactly once. -/
def validate_date_status (cls : Date → Bool × String) (records : List DateRecord) :
    List ValidationOutcome :=
  records.map (validateOne cls)

/-- The `valid_records` list built by the loop. -/
def validRecords (cls : Date → Bool × String) (records : List DateRecord) :
    List ValidationOutcome :=
  (validate_date_status cls records).filter (·.isValid)

/-- The `invalid_records` list built by the loop. -/
def invalidRecords (cls : Date → Bool × String) (records : List DateRecord) :
    List ValidationOutcome :=
  (validate_date_status cls records).filter (fun o => ! o.isValid)

/-! ## Helper lemmas about the classifier -/

theorem weekday_lt_7 (d : Date) : weekday d < 7 :=
  Nat.mod_lt _ (by omega)

theorem isWeekendB_eq_true_iff (d : Date) : isWeekendB d = true ↔ 5 ≤ weekday d := by
  have h7 := weekday_lt_7 d
  unfold isWeekendB
  simp only [Bool.or_eq_true, beq_iff_eq]
  omega

theorem isWeekendB_eq_false_iff (d : Date) : isWeekendB d = false ↔ weekday d < 5 := by
  have h7 := weekday_lt_7 d
  unfold isWeekendB
  simp only [Bool.or_eq_false_iff, beq_eq_false_iff_ne, ne_eq]
  omega

theorem is_holiday_false_eq (api : Date → Except Unit Bool) (d : Date) :
    is_holiday false api d = localClassify d := by
  unfold is_holiday
  simp

theorem is_holiday_error_eq (api : Date → Except Unit Bool) (d : Date)
    (h : api d = .error ()) : is_holiday true api d = localClassify d := by
  unfold is_holiday
  simp [h]

theorem localClassify_table (d : Date) (flag : Bool)
    (h : tableLookup d.year (dateStr d) = some flag) :
    localClassify d = (flag, if flag then statutoryHolidayLabel else adjustedWorkdayLabel) := by
  unfold localClassify
  rw [h]
  cases flag <;> simp

theorem localClassify_default (d : Date)
    (h : tableLookup d.year (dateStr d) = none) :
    localClassify d = if isWeekendB d then (true, weekendLabel) else (false, workingDayLabel) := by
  unfold localClassify
  rw [h]

theorem is_holiday_ok_eq (api : Date → Except Unit Bool) (d : Date) (w : Bool)
    (h : api d = .ok w) :
    is_holiday true api d =
      if w then
        if isWeekendB d then (false, adjustedWorkdayLabel)
        else (false, workingDayLabel)
      else
        if isWeekendB d then (true, weekendLabel)
        else (true, specialRestDayLabel) := by
  unfold is_holiday
  simp [h]

/-! ## Claims -/

/-- C2: when the remote path succeeds (`HAS_API` and `api_is_workday` returns
`w` without raising), `HolidayData.is_holiday` returns exactly the four-case
mapping: working day on a weekend → `AdjustedWorkday`, not a holiday; working
day on a weekday → `WorkingDay`, not a holiday; non-working day on a weekend →
`Weekend`, a holiday; non-working day on a weekday → `SpecialRestDay`, a
holiday. -/
theorem c2_remote_success_mapping (api : Date → Except Unit Bool) (d : Date)
    (w : Bool) (h : api d = .ok w) :
    is_holiday true api d =
      if w then
        if isWeekendB d then (false, adjustedWorkdayLabel)
        else (false, workingDayLabel)
      else
        if isWeekendB d then (true, weekendLabel)
        else (true, specialRestDayLabel) :=
  is_holiday_ok_eq api d w h

/-- Witness for C2 at a concrete input: 2026-01-03 is a Saturday; a remote
"working day" answer classifies it as an adjusted workday, not a holiday. -/
theorem c2_remote_success_mapping_witness :
    is_holiday true (fun _ => Except.ok true) ⟨2026, 1, 3⟩
      = (false, adjustedWorkdayLabel) :=
  (c2_remote_success_mapping (fun _ => Except.ok true) ⟨2026, 1, 3⟩ true rfl).trans
    (by decide)

/-- C3: for a date present in the local table of its year, with the remote
path disabled (`HAS_API` false) or failing at the classify boundary
(`api_is_workday` raising), `HolidayData.is_holiday` returns
(`true`, `StatutoryHoliday`) when the flag is `true` and
(`false`, `AdjustedWorkday`) when the flag is `false`, regardless of the
weekday. -/
theorem c3_local_table_classification (hasApi : Bool)
    (api : Date → Except Unit Bool) (d : Date) (flag : Bool)
    (hoff : hasApi = false ∨ api d = .error ())
    (htab : tableLookup d.year (dateStr d) = some flag) :
    is_holiday hasApi api d =
      (flag, if flag then statutoryHolidayLabel else adjustedWorkdayLabel) := by
  have hloc := localClassify_table d flag htab
  rcases hoff with rfl | herr
  · rw [is_holiday_false_eq, hloc]
  · cases hasApi
    · rw [is_holiday_false_eq, hloc]
    · rw [is_holiday_error_eq api d herr, hloc]

/-- Witness for C3 at a concrete input: 2026-02-28 carries flag `false`
(an adjusted workday, on a Saturday) and classifies as not a holiday. -/
theorem c3_local_table_classification_witness :
    is_holiday false (fun _ => Except.ok true) ⟨2026, 2, 28⟩
      = (false, adjustedWorkdayLabel)
    ∧ tableLookup 2026 (dateStr ⟨2026, 2, 28⟩) = some false :=
  ⟨(c3_local_table_classification false (fun _ => Except.ok true) ⟨2026, 2, 28⟩
      false (Or.inl rfl) (by decide)).trans (by decide),
    by decide⟩

/-- C7: for a date of the hard-coded year 2026 not present in the local
table, with the remote path disabled, `HolidayData.is_holiday` returns
(`false`, `WorkingDay`) on Monday–Friday and (`true`, `Weekend`) on
Saturday/Sunday. -/
theorem c7_default_rule (api : Date → Except Unit Bool) (d : Date)
    (hy : d.year = 2026)
    (htab : tableLookup d.year (dateStr d) = none) :
    (weekday d < 5 → is_holiday false api d = (false, workingDayLabel))
    ∧ (5 ≤ weekday d → is_holiday false api d = (true, weekendLabel)) := by
  rw [is_holiday_false_eq, localClassify_default d htab]
  constructor
  · intro h5
    rw [(isWeekendB_eq_false_iff d).2 h5]
    simp
  · intro h5
    rw [(isWeekendB_eq_true_iff d).2 h5]
    simp

/-- Witness for C7 at concrete inputs: 2026-01-02 (Friday, not in the table)
is a working day; 2026-01-04 (Sunday, not in the table) is a weekend
holiday. -/
theorem c7_default_rule_witness :
    is_holiday false (fun _ => Except.ok true) ⟨2026, 1, 2⟩
      = (false, workingDayLabel)
    ∧ is_holiday false (fun _ => Except.ok true) ⟨2026, 1, 4⟩
      = (true, weekendLabel) :=
  ⟨(c7_default_rule (fun _ => Except.ok true) ⟨2026, 1, 2⟩ rfl (by decide)).1
      (by decide),
    (c7_default_rule (fun _ => Except.ok true) ⟨2026, 1, 4⟩ rfl (by decide)).2
      (by decide)⟩

theorem localClassify_invariant (d : Date) :
    ((localClassify d).1 = true ↔
      (localClassify d).2 ∈ [weekendLabel, statutoryHolidayLabel, specialRestDayLabel])
    ∧ ((localClassify d).1 = false ↔
      (localClassify d).2 ∈ [workingDayLabel, adjustedWorkdayLabel]) := by
  unfold localClassify
  rcases htab : tableLookup d.year (dateStr d) with _ | b
  · simp only [htab]
    cases hw : isWeekendB d <;> decide
  · cases b <;> simp only [htab] <;> decide

/-- C10: the pair returned by `HolidayData.is_holiday` is always internally
consistent and drawn from a closed set of five labels: the flag is `true`
exactly when the label is `Weekend`, `StatutoryHoliday` or `SpecialRestDay`,
and `false` exactly when the label is `WorkingDay` or `AdjustedWorkday` —
under every remote behaviour. -/
theorem c10_classification_invariant (hasApi : Bool)
    (api : Date → Except Unit Bool) (d : Date) :
    ((is_holiday hasApi api d).1 = true ↔
      (is_holiday hasApi api d).2
        ∈ [weekendLabel, statutoryHolidayLabel, specialRestDayLabel])
    ∧ ((is_holiday hasApi api d).1 = false ↔
      (is_holiday hasApi api d).2 ∈ [workingDayLabel, adjustedWorkdayLabel]) := by
  cases hasApi
  · rw [is_holiday_false_eq]
    exact localClassify_invariant d
  · rcases hapi : api d with e | w
    · cases e
      rw [is_holiday_error_eq api d hapi]
      exact localClassify_invariant d
    · rw [is_holiday_ok_eq api d w hapi]
      cases w <;> cases hw : isWeekendB d <;> decide

/-- Witness for C10 at a concrete input: 2026-01-07 under a remote
"non-working day" answer. -/
theorem c10_classification_invariant_witness :
    ((is_holiday true (fun _ => Except.ok false) ⟨2026, 1, 7⟩).1 = true ↔
      (is_holiday true (fun _ => Except.ok false) ⟨2026, 1, 7⟩).2
        ∈ [weekendLabel, statutoryHolidayLabel, specialRestDayLabel])
    ∧ ((is_holiday true (fun _ => Except.ok false) ⟨2026, 1, 7⟩).1 = false ↔
      (is_holiday true (fun _ => Except.ok false) ⟨2026, 1, 7⟩).2
        ∈ [workingDayLabel, adjustedWorkdayLabel]) :=
  c10_classification_invariant true (fun _ => Except.ok false) ⟨2026, 1, 7⟩

/-- C1 counterexample: 2026-01-01 (a Thursday) is in the local table with flag
`true` (statutory holiday), yet with the workday module imported and the
remote data failing (token failure, transport failure or malformed response
all make `get_holiday_data` return `None`), `classify` returns
(`false`, `WorkingDay`): `is_workday` substitutes its internal weekday
default instead of raising, so classification never reaches the local-table
step and the table does not determine the result. -/
theorem c1_counterexample :
    tableLookup 2026 (dateStr ⟨2026, 1, 1⟩) = some true
    ∧ is_holiday true (apiFromWorkday none) ⟨2026, 1, 1⟩ = (false, workingDayLabel)
    ∧ is_holiday true (apiFromWorkday none) ⟨2026, 1, 1⟩ ≠ (true, statutoryHolidayLabel) :=
  ⟨by decide, by decide, by decide⟩

/-- C1 as amended: with the workday module imported, a failure of the remote
data path (token acquisition failure, network/transport failure, malformed
remote response — all surfacing as `get_holiday_data = None`) does NOT fall
through to the local table: `is_workday` substitutes the weekday default
internally, so `classify` returns the pure weekday mapping (Mon–Fri →
`WorkingDay`, Sat/Sun → `Weekend`) and the local table is bypassed.  The
local holiday table determines the classification of dates it contains only
when the workday module itself is unavailable (import failed, `HAS_API`
false) or `api_is_workday` raises. -/
theorem c1_remote_failure_fallback :
    (∀ d : Date, is_holiday true (apiFromWorkday none) d =
        if isWeekendB d then (true, weekendLabel) else (false, workingDayLabel))
    ∧ (∀ (hasApi : Bool) (api : Date → Except Unit Bool) (d : Date) (flag : Bool),
        (hasApi = false ∨ api d = .error ()) →
        tableLookup d.year (dateStr d) = some flag →
          is_holiday hasApi api d =
            (flag, if flag then statutoryHolidayLabel else adjustedWorkdayLabel)) := by
  constructor
  · intro d
    have hok : apiFromWorkday none d = .ok (decide (weekday d < 5)) := rfl
    rw [is_holiday_ok_eq (apiFromWorkday none) d _ hok]
    by_cases h5 : weekday d < 5
    · rw [(isWeekendB_eq_false_iff d).2 h5]
      simp [h5]
    · rw [(isWeekendB_eq_true_iff d).2 (by omega)]
      simp [h5]
  · intro hasApi api d flag hoff htab
    have hloc := localClassify_table d flag htab
    rcases hoff with rfl | herr
    · rw [is_holiday_false_eq, hloc]
    · cases hasApi
      · rw [is_holiday_false_eq, hloc]
      · rw [is_holiday_error_eq api d herr, hloc]

/-- Witness for the amended C1 at concrete inputs: under remote data failure,
2026-01-01 (table: statutory holiday) classifies as a plain working day;
with the module unavailable, the same date classifies from the table. -/
theorem c1_remote_failure_fallback_witness :
    is_holiday true (apiFromWorkday none) ⟨2026, 1, 1⟩ = (false, workingDayLabel)
    ∧ is_holiday false (apiFromWorkday none) ⟨2026, 1, 1⟩
      = (true, statutoryHolidayLabel) :=
  ⟨(c1_remote_failure_fallback.1 ⟨2026, 1, 1⟩).trans (by decide),
    (c1_remote_failure_fallback.2 false (apiFromWorkday none) ⟨2026, 1, 1⟩ true
      (Or.inl rfl) (by decide)).trans (by decide)⟩

theorem int_key_beq_str_key (n : Int) (s : String) :
    (PyKey.int n == PyKey.str s) = false := by
  simp

/-- C8: for a successfully fetched remote holiday list whose records carry
their `date` field as a string, `get_work_day` probes the dict (keyed by
those strings) with an integer timestamp, so the lookup never matches any
record; the result is the weekday default (Mon–Fri working, Sat/Sun not),
and every record's `is_work_day` flag is ignored. -/
theorem c8_timestamp_lookup_never_matches (records : List HolidayRecord)
    (d : Date) (hstr : ∀ r ∈ records, ∃ s, r.date = PyKey.str s) :
    (records.map fun r => (r.date, r.is_work_day)).lookup
        (PyKey.int (timestampOf d)) = none
    ∧ get_work_day (some records) d = some (decide (weekday d < 5)) := by
  have hlook : (records.map fun r => (r.date, r.is_work_day)).lookup
      (PyKey.int (timestampOf d)) = none := by
    induction records with
    | nil => simp
    | cons r rs ih =>
      obtain ⟨s, hs⟩ := hstr r (by simp)
      have hrest := ih (fun r' hr' => hstr r' (by simp [hr']))
      simp only [List.map_cons, List.lookup, hs, int_key_beq_str_key]
      exact hrest
  refine ⟨hlook, ?_⟩
  unfold get_work_day
  simp only [hlook]

/-- Witness for C8 at a concrete input: one string-dated record marked
non-working does not stop 2026-01-05 (a Monday) from resolving to the
weekday default "working". -/
theorem c8_timestamp_lookup_never_matches_witness :
    get_work_day (some [⟨PyKey.str "2026-01-05", false⟩]) ⟨2026, 1, 5⟩
      = some true :=
  ((c8_timestamp_lookup_never_matches [⟨PyKey.str "2026-01-05", false⟩]
      ⟨2026, 1, 5⟩
      (fun r hr => ⟨"2026-01-05", by
        simp only [List.mem_singleton] at hr
        rw [hr]⟩)).2).trans
    (by decide)

theorem get_access_token_cache (net : Nat → TokenKey → Option Json)
    (st : TokenState) (k : TokenKey) :
    (get_access_token net st k).2.cache
      = some (k, (get_access_token net st k).1) := by
  unfold get_access_token
  rcases hsc : st.cache with _ | ⟨k', v⟩
  · simp
  · by_cases hk : k' = k
    · subst hk
      simp [hsc]
    · simp [hk]

theorem get_access_token_hit (net : Nat → TokenKey → Option Json)
    (st : TokenState) (k : TokenKey) (v : Option Json)
    (h : st.cache = some (k, v)) :
    get_access_token net st k = (v, st) := by
  unfold get_access_token
  rw [h]
  simp

/-- A network transport that always succeeds with a well-formed token
response. -/
def netAlwaysToken : Nat → TokenKey → Option Json :=
  fun _ _ => some (Json.obj [("data", Json.obj [("access_token", Json.str "tok")])])

/-- A network transport on which every round-trip fails. -/
def netAlwaysFail : Nat → TokenKey → Option Json :=
  fun _ _ => none

/-- A first credential triple. -/
def keyA : TokenKey := ⟨"http://auth-center", "app-a", "secret-a"⟩

/-- A second, distinct credential triple. -/
def keyB : TokenKey := ⟨"http://auth-center", "app-b", "secret-b"⟩

/-- C6 counterexample: the cache is `lru_cache(maxsize=1)`, not a
process-lifetime memo per triple.  The first call for `keyA` succeeds and is
cached, but after one intervening call with the different triple `keyB`, a
further call with the identical `keyA` parameters performs a fresh network
round-trip: the three-call sequence A, B, A costs three network calls, so two
calls with identical parameters are not limited to one network call. -/
theorem c6_counterexample :
    (runTokenCalls netAlwaysToken initTokenState [keyA]).1
      = [some (Json.str "tok")]
    ∧ (runTokenCalls netAlwaysToken initTokenState [keyA, keyB]).2.netCount = 2
    ∧ (runTokenCalls netAlwaysToken initTokenState [keyA, keyB, keyA]).2.netCount = 3 :=
  ⟨rfl, rfl, rfl⟩

/-- C6 as amended: token results are memoized in a capacity-one slot
(`lru_cache(maxsize=1)`) keyed by the `(authority_url, app_id, app_secret)`
triple.  A call with the same triple as the immediately preceding call (no
intervening different-triple call) is served from the cache: it returns the
same result and leaves the process state — network-call count included —
unchanged.  An intervening call under a different triple evicts the entry,
after which an identical call repeats the network round-trip.  There is no
expiry or revalidation. -/
theorem c6_capacity_one_memoization (net : Nat → TokenKey → Option Json)
    (st : TokenState) (k : TokenKey) :
    get_access_token net (get_access_token net st k).2 k
      = ((get_access_token net st k).1, (get_access_token net st k).2)
    ∧ (get_access_token net (get_access_token net st k).2 k).2.netCount
      = (get_access_token net st k).2.netCount := by
  have h := get_access_token_hit net (get_access_token net st k).2 k
    (get_access_token net st k).1 (get_access_token_cache net st k)
  exact ⟨h, by rw [h]⟩

/-- Witness for the amended C6 at a concrete input: an immediate repeat of the
`keyA` call is served from the cache with the state unchanged. -/
theorem c6_capacity_one_memoization_witness :
    get_access_token netAlwaysToken
        (get_access_token netAlwaysToken initTokenState keyA).2 keyA
      = ((get_access_token netAlwaysToken initTokenState keyA).1,
          (get_access_token netAlwaysToken initTokenState keyA).2)
    ∧ (get_access_token netAlwaysToken
          (get_access_token netAlwaysToken initTokenState keyA).2 keyA).2.netCount
      = (get_access_token netAlwaysToken initTokenState keyA).2.netCount :=
  c6_capacity_one_memoization netAlwaysToken initTokenState keyA

/-- C9: with a non-empty `app_id`, a first call that ends in `Failure`
(`None`) caches that `None` exactly like a success: every further call with
the identical triple and no intervening different-triple call returns `None`
from the cache, with the process state (network-call count included) frozen —
the failure is never retried. -/
theorem c9_failure_memoized (net : Nat → TokenKey → Option Json)
    (k : TokenKey) (hid : k.app_id ≠ "")
    (hfail : (get_access_token net initTokenState k).1 = none) :
    ∀ n : Nat,
      runTokenCalls net (get_access_token net initTokenState k).2
          (List.replicate n k)
        = (List.replicate n none, (get_access_token net initTokenState k).2) := by
  have hc := get_access_token_cache net initTokenState k
  rw [hfail] at hc
  have hhit := get_access_token_hit net (get_access_token net initTokenState k).2
    k none hc
  intro n
  induction n with
  | zero => simp [runTokenCalls]
  | succ n ih =>
    rw [List.replicate_succ]
    unfold runTokenCalls
    rw [hhit]
    simp only [List.replicate_succ, ih]

/-- Witness for C9 at a concrete input: with a transport that always fails,
the first call for `keyA` returns `Failure`, and two further identical calls
return `Failure` with the state unchanged (no new network request). -/
theorem c9_failure_memoized_witness :
    keyA.app_id ≠ ""
    ∧ (get_access_token netAlwaysFail initTokenState keyA).1 = none
    ∧ runTokenCalls netAlwaysFail (get_access_token netAlwaysFail initTokenState keyA).2
        (List.replicate 2 keyA)
      = (List.replicate 2 none, (get_access_token netAlwaysFail initTokenState keyA).2) :=
  ⟨by decide, rfl,
    c9_failure_memoized netAlwaysFail keyA (by decide) rfl 2⟩

theorem filter_isValid_length (l : List ValidationOutcome) :
    (l.filter (·.isValid)).length + (l.filter (fun o => ! o.isValid)).length
      = l.length := by
  induction l with
  | nil => rfl
  | cons a l ih =>
    cases h : a.isValid <;> simp only [List.filter_cons, h] <;> simp <;> omega

/-- C5: `validate_date_status` files every record in exactly one of the two
lists (the counts always sum to the total — it never aborts on a bad record);
a record with a missing date or status is filed invalid with the
missing-field reason, before any date parsing; a record whose date string
does not parse as `YYYY-MM-DD` is filed invalid with the parse-error reason;
otherwise the record is filed valid exactly when its supplied status equals
NOT `is_holiday` of the classified date, and filed invalid with the mismatch
explanation otherwise — under every remote behaviour of the classifier. -/
theorem c5_validate_full_partition (hasApi : Bool)
    (api : Date → Except Unit Bool) :
    (∀ records : List DateRecord,
        (validRecords (is_holiday hasApi api) records).length
          + (invalidRecords (is_holiday hasApi api) records).length
          = records.length)
    ∧ (∀ r : DateRecord, r.date = none ∨ r.status = none →
        validateOne (is_holiday hasApi api) r = .invalidMissing)
    ∧ (∀ (r : DateRecord) (ds : String) (st : Bool),
        r.date = some ds → r.status = some st → ds ≠ "" →
        parseDate ds = none →
        validateOne (is_holiday hasApi api) r = .invalidParse)
    ∧ (∀ (r : DateRecord) (ds : String) (st : Bool) (d : Date),
        r.date = some ds → r.status = some st → ds ≠ "" →
        parseDate ds = some d →
        ((validateOne (is_holiday hasApi api) r).isValid = true
            ↔ st = ! (is_holiday hasApi api d).1)
          ∧ (st ≠ ! (is_holiday hasApi api d).1 →
              validateOne (is_holiday hasApi api) r
                = .invalidMismatch (! (is_holiday hasApi api d).1)
                    (is_holiday hasApi api d).1 (is_holiday hasApi api d).2)) := by
  refine ⟨?_, ?_, ?_, ?_⟩
  · intro records
    unfold validRecords invalidRecords validate_date_status
    rw [filter_isValid_length, List.length_map]
  · intro r h
    obtain ⟨rd, rs⟩ := r
    dsimp only at h
    rcases h with rfl | rfl
    · rfl
    · cases rd <;> rfl
  · intro r ds st hd hs hne hparse
    obtain ⟨rd, rs⟩ := r
    dsimp only at hd hs
    subst hd
    subst hs
    unfold validateOne
    simp [hne, hparse]
  · intro r ds st d hd hs hne hparse
    obtain ⟨rd, rs⟩ := r
    dsimp only at hd hs
    subst hd
    subst hs
    unfold validateOne
    by_cases hst : st = ! (is_holiday hasApi api d).1
    · simp [hne, hparse, hst, ValidationOutcome.isValid]
    · simp [hne, hparse, hst, ValidationOutcome.isValid]

/-- Witness for C5 at concrete inputs: a one-record batch partitions 1 + 0;
a record with a missing date is filed missing-field; `"2026-13-40"` is filed
as a parse error; 2026-02-28 (adjusted workday) with supplied status `false`
is filed as a mismatch. -/
theorem c5_validate_full_partition_witness :
    (validRecords (is_holiday false (fun _ => Except.ok true))
        [⟨some "2026-02-02", some false⟩]).length
      + (invalidRecords (is_holiday false (fun _ => Except.ok true))
          [⟨some "2026-02-02", some false⟩]).length = 1
    ∧ validateOne (is_holiday false (fun _ => Except.ok true)) ⟨none, some true⟩
       = .invalidMissing
    ∧ validateOne (is_holiday false (fun _ => Except.ok true))
        ⟨some "2026-13-40", some true⟩ = .invalidParse
    ∧ validateOne (is_holiday false (fun _ => Except.ok true))
        ⟨some "2026-02-28", some false⟩
      = .invalidMismatch true false adjustedWorkdayLabel :=
  ⟨(c5_validate_full_partition false (fun _ => Except.ok true)).1
      [⟨some "2026-02-02", some false⟩],
    (c5_validate_full_partition false (fun _ => Except.ok true)).2.1
      ⟨none, some true⟩ (Or.inl rfl),
    (c5_validate_full_partition false (fun _ => Except.ok true)).2.2.1
      ⟨some "2026-13-40", some true⟩ "2026-13-40" true rfl rfl (by decide)
      (by decide),
    (((c5_validate_full_partition false (fun _ => Except.ok true)).2.2.2
        ⟨some "2026-02-28", some false⟩ "2026-02-28" false ⟨2026, 2, 28⟩
        rfl rfl (by decide) (by decide)).2 (by decide)).trans (by decide)⟩

/-! ## Lemmas about the year-enumeration loop -/

theorem holidayScan_mem (cls : Date → Bool × String) (last : Date) :
    ∀ (n : Nat) (cur : Date), scanMeasure last cur ≤ n → ValidDate cur →
      ∀ x, x ∈ holidayScan cls last cur ↔
        (ValidDate x ∧ dateLe cur x ∧ dateLe x last ∧ (cls x).1 = true) := by
  intro n
  induction n with
  | zero =>
    intro cur hm hv x
    have hguard : ¬ dateLe cur last := by
      intro hle
      obtain ⟨y, m, dd⟩ := cur
      obtain ⟨ly, lm, ld⟩ := last
      rw [dateLe_mk] at hle
      unfold scanMeasure at hm
      dsimp only at hm
      omega
    rw [holidayScan.eq_def, dif_neg hguard]
    simp only [List.not_mem_nil, false_iff]
    rintro ⟨_, h1, h2, _⟩
    exact hguard (dateLe_trans h1 h2)
  | succ n ih =>
    intro cur hm hv x
    rw [holidayScan.eq_def]
    by_cases hg : dateLe cur last
    · rw [dif_pos hg]
      have hv' := nextDate_valid hv
      have hm' : scanMeasure last (nextDate cur) ≤ n := by
        have := scanMeasure_next last cur hg
        omega
      have ihn := ih (nextDate cur) hm' hv' x
      constructor
      · intro hx
        rcases List.mem_append.1 hx with hx | hx
        · by_cases hc : (cls cur).1 = true
          · rw [if_pos hc] at hx
            simp only [List.mem_singleton] at hx
            subst hx
            exact ⟨hv, dateLe_refl x, hg, hc⟩
          · rw [if_neg hc] at hx
            simp at hx
        · have hres := ihn.1 hx
          exact ⟨hres.1,
            dateLe_trans (dateLe_of_lt (dateLt_nextDate cur)) hres.2.1,
            hres.2.2.1, hres.2.2.2⟩
      · rintro ⟨hxv, hcx, hxl, hcls⟩
        by_cases hx : x = cur
        · subst hx
          refine List.mem_append.2 (Or.inl ?_)
          rw [if_pos hcls]
          simp
        · have hlt : dateLt cur x :=
            dateLt_of_le_of_ne hcx (fun h => hx h.symm)
          have hnle : dateLe (nextDate cur) x := nextDate_le_of_lt hv hxv hlt
          exact List.mem_append.2 (Or.inr (ihn.2 ⟨hxv, hnle, hxl, hcls⟩))
    · rw [dif_neg hg]
      simp only [List.not_mem_nil, false_iff]
      rintro ⟨_, h1, h2, _⟩
      exact hg (dateLe_trans h1 h2)

theorem holidayScan_pairwise (cls : Date → Bool × String) (last : Date) :
    ∀ (n : Nat) (cur : Date), scanMeasure last cur ≤ n → ValidDate cur →
      List.Pairwise dateLt (holidayScan cls last cur) := by
  intro n
  induction n with
  | zero =>
    intro cur hm hv
    have hguard : ¬ dateLe cur last := by
      intro hle
      obtain ⟨y, m, dd⟩ := cur
      obtain ⟨ly, lm, ld⟩ := last
      rw [dateLe_mk] at hle
      unfold scanMeasure at hm
      dsimp only at hm
      omega
    rw [holidayScan.eq_def, dif_neg hguard]
    exact List.Pairwise.nil
  | succ n ih =>
    intro cur hm hv
    rw [holidayScan.eq_def]
    by_cases hg : dateLe cur last
    · rw [dif_pos hg]
      have hv' := nextDate_valid hv
      have hm' : scanMeasure last (nextDate cur) ≤ n := by
        have := scanMeasure_next last cur hg
        omega
      have hp := ih (nextDate cur) hm' hv'
      by_cases hc : (cls cur).1 = true
      · rw [if_pos hc]
        simp only [List.singleton_append, List.pairwise_cons]
        refine ⟨?_, hp⟩
        intro x hx
        have hres := (holidayScan_mem cls last n (nextDate cur) hm' hv' x).1 hx
        exact dateLt_of_lt_of_le (dateLt_nextDate cur) hres.2.1
      · rw [if_neg hc]
        simpa using hp
    · rw [dif_neg hg]
      exact List.Pairwise.nil

theorem validDate_jan1 (Y : Nat) (hY : 1 ≤ Y) : ValidDate ⟨Y, 1, 1⟩ := by
  rw [validDate_mk]
  exact ⟨hY, by omega, by omega, by omega, one_le_daysInMonth Y 1⟩

theorem yearScan_mem (Y : Nat) (hY : 1 ≤ Y) (cls : Date → Bool × String)
    (x : Date) :
    x ∈ yearScan cls Y ↔ (ValidDate x ∧ x.year = Y ∧ (cls x).1 = true) := by
  unfold yearScan
  rw [holidayScan_mem cls ⟨Y, 12, 31⟩ (scanMeasure ⟨Y, 12, 31⟩ ⟨Y, 1, 1⟩)
    ⟨Y, 1, 1⟩ (Nat.le_refl _) (validDate_jan1 Y hY) x]
  obtain ⟨xy, xm, xd⟩ := x
  have h31 := daysInMonth_le_31 xy xm
  constructor
  · rintro ⟨hxv, h1, h2, h3⟩
    rw [dateLe_mk] at h1 h2
    exact ⟨hxv, by dsimp only; omega, h3⟩
  · rintro ⟨hxv, hyx, h3⟩
    have hxv' := hxv
    rw [validDate_mk] at hxv'
    dsimp only at hyx
    refine ⟨hxv, ?_, ?_, h3⟩
    · rw [dateLe_mk]; omega
    · rw [dateLe_mk]; omega

theorem yearScan_pairwise (Y : Nat) (hY : 1 ≤ Y) (cls : Date → Bool × String) :
    List.Pairwise dateLt (yearScan cls Y) :=
  holidayScan_pairwise cls ⟨Y, 12, 31⟩ (scanMeasure ⟨Y, 12, 31⟩ ⟨Y, 1, 1⟩)
    ⟨Y, 1, 1⟩ (Nat.le_refl _) (validDate_jan1 Y hY)

theorem daysBeforeMonth_succ_eq (y : Nat) :
    ∀ m, 1 ≤ m →
      daysBeforeMonth y (m + 1) = daysBeforeMonth y m + daysInMonth y m
  | 0, h => by omega
  | _ + 1, _ => rfl

theorem daysBeforeMonth_le_succ (y : Nat) :
    ∀ m, daysBeforeMonth y m ≤ daysBeforeMonth y (m + 1)
  | 0 => Nat.le_refl _
  | m + 1 => by
    rw [daysBeforeMonth_succ_eq y (m + 1) (by omega)]
    omega

theorem daysBeforeMonth_mono (y : Nat) {m1 m2 : Nat} (h : m1 ≤ m2) :
    daysBeforeMonth y m1 ≤ daysBeforeMonth y m2 := by
  induction h with
  | refl => exact Nat.le_refl _
  | step _ ih => exact Nat.le_trans ih (daysBeforeMonth_le_succ y _)

theorem daysBeforeMonth_le_linear (y : Nat) :
    ∀ m, daysBeforeMonth y m ≤ 31 * m
  | 0 => by simp [daysBeforeMonth]
  | 1 => by simp [daysBeforeMonth]
  | m + 2 => by
    have h1 := daysBeforeMonth_le_linear y (m + 1)
    have h2 := daysInMonth_le_31 y (m + 1)
    show daysBeforeMonth y (m + 1) + daysInMonth y (m + 1) ≤ 31 * (m + 2)
    omega

/-- Every valid date of a year up to 9998 lies strictly below
`date.max.toordinal() = 3652059`, so its day-increment cannot overflow. -/
theorem toOrdinal_lt_max {d : Date} (hv : ValidDate d) (hy : d.year ≤ 9998) :
    toOrdinal d < 3652059 := by
  obtain ⟨y, m, dd⟩ := d
  rw [validDate_mk] at hv
  dsimp only at hy
  have h1 := daysBeforeMonth_le_linear y m
  have h2 := daysInMonth_le_31 y m
  unfold toOrdinal
  dsimp only
  omega

theorem toOrdinal_lt_same_year {a b : Date} (ha : ValidDate a)
    (hb : ValidDate b) (hy : a.year = b.year) (h : dateLt a b) :
    toOrdinal a < toOrdinal b := by
  obtain ⟨ya, ma, da⟩ := a
  obtain ⟨yb, mb, db⟩ := b
  dsimp only at hy
  subst hy
  rw [validDate_mk] at ha hb
  rw [dateLt_mk] at h
  unfold toOrdinal
  dsimp only
  rcases h with h | ⟨-, h | ⟨rfl, h⟩⟩
  · omega
  · have hstep := daysBeforeMonth_succ_eq ya ma (by omega)
    have hmono := daysBeforeMonth_mono ya (show ma + 1 ≤ mb by omega)
    omega
  · omega

theorem dateLe_year_le {a b : Date} (h : dateLe a b) : a.year ≤ b.year := by
  obtain ⟨ya, ma, da⟩ := a
  obtain ⟨yb, mb, db⟩ := b
  rw [dateLe_mk] at h
  dsimp only
  omega

/-- While the end date stays at year ≤ 9998, no increment of the loop can
overflow, and the faithful loop returns exactly the accumulated scan. -/
theorem holidayScanE_eq_some (cls : Date → Bool × String) (last : Date) :
    ∀ (n : Nat) (cur : Date), scanMeasure last cur ≤ n → ValidDate cur →
      last.year ≤ 9998 →
      holidayScanE cls last cur = some (holidayScan cls last cur) := by
  intro n
  induction n with
  | zero =>
    intro cur hm hv hmax
    have hng : ¬ dateLe cur last := by
      intro hle
      have h1 := dateLe_year_le hle
      unfold scanMeasure at hm
      omega
    rw [holidayScanE.eq_def, dif_neg hng, holidayScan.eq_def, dif_neg hng]
  | succ n ih =>
    intro cur hm hv hmax
    by_cases hg : dateLe cur last
    · have hyle : cur.year ≤ 9998 := Nat.le_trans (dateLe_year_le hg) hmax
      have hord := toOrdinal_lt_max hv hyle
      rw [holidayScanE.eq_def, dif_pos hg, holidayScan.eq_def, dif_pos hg]
      rw [if_pos (by omega)]
      have hm' : scanMeasure last (nextDate cur) ≤ n := by
        have := scanMeasure_next last cur hg
        omega
      rw [ih (nextDate cur) hm' (nextDate_valid hv) hmax]
      rfl
    · rw [holidayScanE.eq_def, dif_neg hg, holidayScan.eq_def, dif_neg hg]

/-- A loop whose end date is `date.max = 9999-12-31` and whose cursor is
already in year 9999 always reaches 9999-12-31, where the increment
overflows: the whole call raises (returns `none`). -/
theorem holidayScanE_max_none (cls : Date → Bool × String) :
    ∀ (n : Nat) (cur : Date), scanMeasure ⟨9999, 12, 31⟩ cur ≤ n →
      ValidDate cur → cur.year = 9999 → dateLe cur ⟨9999, 12, 31⟩ →
      holidayScanE cls ⟨9999, 12, 31⟩ cur = none := by
  intro n
  induction n with
  | zero =>
    intro cur hm hv hy hle
    exfalso
    have h1 := dateLe_year_le hle
    dsimp only at h1
    unfold scanMeasure at hm
    dsimp only at hm
    omega
  | succ n ih =>
    intro cur hm hv hy hle
    rw [holidayScanE.eq_def, dif_pos hle]
    by_cases hcur : cur = ⟨9999, 12, 31⟩
    · subst hcur
      rw [if_neg (by decide)]
    · have hlt : dateLt cur ⟨9999, 12, 31⟩ := dateLt_of_le_of_ne hle hcur
      have hord : toOrdinal cur < toOrdinal ⟨9999, 12, 31⟩ :=
        toOrdinal_lt_same_year hv (by decide) (by rw [hy]) hlt
      have hmax_eq : toOrdinal ⟨9999, 12, 31⟩ = 3652059 := by decide
      rw [if_pos (by omega)]
      have hnext_year : (nextDate cur).year = 9999 := by
        obtain ⟨y, m, dd⟩ := cur
        dsimp only at hy
        subst hy
        rw [validDate_mk] at hv
        rw [dateLt_mk] at hlt
        unfold nextDate
        dsimp only
        split
        · rfl
        · split
          · rfl
          · exfalso
            have hm12 : m = 12 := by omega
            subst hm12
            have h31 : daysInMonth 9999 12 = 31 := by decide
            omega
      have hm' : scanMeasure ⟨9999, 12, 31⟩ (nextDate cur) ≤ n := by
        have := scanMeasure_next ⟨9999, 12, 31⟩ cur hle
        omega
      have ihn := ih (nextDate cur) hm' (nextDate_valid hv) hnext_year
        (nextDate_le_of_lt hv (by decide) hlt)
      rw [ihn]
      rfl

theorem dateStr_inj_same_year {a b : Date} (ha : ValidDate a) (hb : ValidDate b)
    (hy : a.year = b.year) (h : dateStr a = dateStr b) : a = b := by
  obtain ⟨ya, ma, da⟩ := a
  obtain ⟨yb, mb, db⟩ := b
  rw [validDate_mk] at ha hb
  dsimp only at hy
  subst hy
  have h31a := daysInMonth_le_31 ya ma
  have h31b := daysInMonth_le_31 ya mb
  unfold dateStr at h
  dsimp only at h
  have hd := congrArg String.data h
  simp only [String.data_append, List.append_assoc] at hd
  have hd1 := List.append_cancel_left hd
  have hd2 := List.append_cancel_left hd1
  have hlen : (pad2 ma).data.length = (pad2 mb).data.length := by
    have l1 := pad2_length ma (by omega)
    have l2 := pad2_length mb (by omega)
    exact l1.trans l2.symm
  obtain ⟨hm, hrest⟩ := List.append_inj hd2 hlen
  have hmeq : ma = mb := by
    have u1 := unpad2_pad2 ma (by omega)
    have u2 := unpad2_pad2 mb (by omega)
    unfold unpad2 at u1 u2
    rw [hm] at u1
    omega
  subst hmeq
  have hd3 := List.append_cancel_left hrest
  have hdeq : da = db := by
    have u1 := unpad2_pad2 da (by omega)
    have u2 := unpad2_pad2 db (by omega)
    unfold unpad2 at u1 u2
    rw [hd3] at u1
    omega
  subst hdeq
  rfl

theorem localClassify_true_iff (d : Date) :
    (localClassify d).1 = true ↔
      (tableLookup d.year (dateStr d) = some true
        ∨ (isWeekendB d = true ∧ tableLookup d.year (dateStr d) ≠ some false)) := by
  unfold localClassify
  rcases htab : tableLookup d.year (dateStr d) with _ | b
  · simp only [htab]
    cases hw : isWeekendB d <;> simp
  · cases b <;> simp only [htab] <;> simp

theorem get_holidays_eq_some (cls : Date → Bool × String) (Y : Nat)
    (hY : 1 ≤ Y) (hYmax : Y ≤ 9998) :
    get_holidays cls Y = some ((yearScan cls Y).map dateStr) := by
  unfold get_holidays
  rw [if_pos ⟨hY, by omega⟩]
  rw [holidayScanE_eq_some cls ⟨Y, 12, 31⟩ (scanMeasure ⟨Y, 12, 31⟩ ⟨Y, 1, 1⟩)
    ⟨Y, 1, 1⟩ (Nat.le_refl _) (validDate_jan1 Y hY) (by dsimp only; omega)]
  rfl

/-- C4 counterexample: the original claim quantifies over every year, but
`HolidayData.get_holidays(9999)` returns no list at all: the loop's
`current_date += timedelta(days=1)` at 9999-12-31 raises `OverflowError`
(past `date.max`) in both the remote branch and the fallback branch, so the
call raises instead of returning a complete list; `get_holidays(0)` likewise
raises `ValueError` at `date(0, 1, 1)`. -/
theorem c4_counterexample :
    get_holidays (is_holiday false (fun _ => Except.ok true)) 9999 = none
    ∧ get_holidays (is_holiday false (fun _ => Except.ok true)) 0 = none := by
  constructor
  · unfold get_holidays
    rw [if_pos (by omega)]
    rw [holidayScanE_max_none (is_holiday false (fun _ => Except.ok true))
      (scanMeasure ⟨9999, 12, 31⟩ ⟨9999, 1, 1⟩) ⟨9999, 1, 1⟩ (Nat.le_refl _)
      (by decide) rfl (by decide)]
  · unfold get_holidays
    rw [if_neg (by omega)]

/-- C4 as amended: for every year `Y` with `1 ≤ Y ≤ 9998` — the years whose
day-increments never overflow `date.max` — and every classifier behaviour,
`HolidayData.get_holidays(Y)` returns (without raising) the serialization of
a full scan of the calendar year: the scanned dates are strictly
date-ascending, the returned strings have no duplicates, and a date of year
`Y` appears exactly when the classifier marks it a holiday (complete, never
partial).  With the remote path disabled, the returned set is exactly
`{d in table[Y] with flag true} ∪ {Sat/Sun of Y not overridden to false}`.
For `Y = 9999` the call raises (`OverflowError` at the final increment) and
for `Y` outside 1..9999 the `date(Y, 1, 1)` construction raises. -/
theorem c4_year_enumeration (Y : Nat) (hY : 1 ≤ Y) (hYmax : Y ≤ 9998)
    (cls : Date → Bool × String) (api : Date → Except Unit Bool) :
    get_holidays cls Y = some ((yearScan cls Y).map dateStr)
    ∧ List.Pairwise dateLt (yearScan cls Y)
    ∧ ((yearScan cls Y).map dateStr).Nodup
    ∧ (∀ x : Date, x ∈ yearScan cls Y ↔
        (ValidDate x ∧ x.year = Y ∧ (cls x).1 = true))
    ∧ (∃ l : List String, get_holidays (is_holiday false api) Y = some l
        ∧ ∀ s : String, s ∈ l ↔
            ∃ d : Date, ValidDate d ∧ d.year = Y ∧ s = dateStr d ∧
              (tableLookup Y (dateStr d) = some true
                ∨ (isWeekendB d = true ∧ tableLookup Y (dateStr d) ≠ some false))) := by
  refine ⟨get_holidays_eq_some cls Y hY hYmax, yearScan_pairwise Y hY cls, ?_,
    yearScan_mem Y hY cls,
    ⟨(yearScan (is_holiday false api) Y).map dateStr,
      get_holidays_eq_some (is_holiday false api) Y hY hYmax, ?_⟩⟩
  · have hnodup : (yearScan cls Y).Nodup :=
      (yearScan_pairwise Y hY cls).imp
        (fun hR => by rintro rfl; exact dateLt_irrefl _ hR)
    refine List.Nodup.map_on ?_ hnodup
    intro x hx y hy hxy
    have hxm := (yearScan_mem Y hY cls x).1 hx
    have hym := (yearScan_mem Y hY cls y).1 hy
    exact dateStr_inj_same_year hxm.1 hym.1 (hxm.2.1.trans hym.2.1.symm) hxy
  · intro s
    rw [List.mem_map]
    constructor
    · rintro ⟨d, hd, rfl⟩
      have hm := (yearScan_mem Y hY (is_holiday false api) d).1 hd
      have hcls : (is_holiday false api d).1 = true := hm.2.2
      rw [is_holiday_false_eq] at hcls
      rw [localClassify_true_iff, hm.2.1] at hcls
      exact ⟨d, hm.1, hm.2.1, rfl, hcls⟩
    · rintro ⟨d, hdv, hdy, rfl, hcond⟩
      refine ⟨d, ?_, rfl⟩
      rw [yearScan_mem Y hY (is_holiday false api) d]
      refine ⟨hdv, hdy, ?_⟩
      rw [is_holiday_false_eq, localClassify_true_iff, hdy]
      exact hcond

/-- Witness for the amended C4 at a concrete input: with the remote path
disabled, `get_holidays(2026)` returns a list, and 2026-01-01 (table flag
`true`) is in it. -/
theorem c4_year_enumeration_witness :
    ∃ l : List String,
      get_holidays (is_holiday false (fun _ => Except.ok true)) 2026 = some l
      ∧ "2026-01-01" ∈ l := by
  obtain ⟨l, hl, hmem⟩ := (c4_year_enumeration 2026 (by omega) (by omega)
    (is_holiday false (fun _ => Except.ok true)) (fun _ => Except.ok true)).2.2.2.2
  exact ⟨l, hl, (hmem "2026-01-01").mpr
    ⟨⟨2026, 1, 1⟩, by decide, rfl, by decide, Or.inl (by decide)⟩⟩

end Xmcp
